import Mathlib

/-!
Verification development for the CineBusca movie-search application
(source: src/src/App.jsx).  The application state machines are embedded
shallowly: every pure computation of the source is translated to a Lean
function, stateful React hooks become explicit state-passing transitions,
and the browser / network collaborators (fetch, JSON.parse, JSON.stringify,
localStorage, Number) are modelled by executable Lean functions over a JSON
value type.  JSON numbers are modelled as integers (the application never
persists non-integral numbers and its page arithmetic is integral);
floating point is out of scope.
-/

/-- JSON values, as produced by JSON.parse and consumed by JSON.stringify.
Numbers are modelled as integers; objects are association lists in
insertion order, mirroring JavaScript object field order. -/
inductive Json where
  | null : Json
  | bool (b : Bool) : Json
  | num (i : Int) : Json
  | str (s : String) : Json
  | arr (items : List Json) : Json
  | obj (fields : List (String × Json)) : Json

/-- Decimal digit character for a digit value below ten. -/
def digChar (d : Nat) : Char := Char.ofNat (48 + d)

/-- Lowercase hexadecimal digit character for a value below sixteen. -/
def hexDig (n : Nat) : Char := if n < 10 then Char.ofNat (48 + n) else Char.ofNat (87 + n)

/-- Base-ten digit characters of a number, least significant first, by
fuel-bounded division; any fuel at least the number itself is enough. -/
def natDigitsAux : Nat → Nat → List Char
  | 0, _ => []
  | fuel + 1, n => if n = 0 then [] else digChar (n % 10) :: natDigitsAux fuel (n / 10)

/-- Decimal rendering of a natural number, most significant digit first. -/
def encNat (n : Nat) : List Char :=
  if n = 0 then ['0'] else (natDigitsAux n n).reverse

/-- Decimal rendering of an integer, with a leading minus sign when negative. -/
def encInt (i : Int) : List Char :=
  if i < 0 then '-' :: encNat i.natAbs else encNat i.toNat

/-- JSON string-literal escape of a single character: quote and backslash get
a backslash escape, control characters get a four-digit hexadecimal escape,
everything else is emitted verbatim. -/
def escChar (c : Char) : List Char :=
  if c = '"' then ['\\', '"']
  else if c = '\\' then ['\\', '\\']
  else if c.toNat < 32 then ['\\', 'u', '0', '0', hexDig (c.toNat / 16), hexDig (c.toNat % 16)]
  else [c]

/-- JSON string-literal escape of a character sequence. -/
def encStrChars : List Char → List Char
  | [] => []
  | c :: cs => escChar c ++ encStrChars cs

mutual

/-- Compact JSON rendering of a value, as a character list; this models the
output of JSON.stringify (which emits no whitespace). -/
def encJson : Json → List Char
  | .null => "null".data
  | .bool true => "true".data
  | .bool false => "false".data
  | .num i => encInt i
  | .str s => '"' :: (encStrChars s.data ++ ['"'])
  | .arr [] => ['[', ']']
  | .arr (j :: l) => '[' :: ((encJson j ++ encItems l) ++ [']'])
  | .obj [] => ['\x7b', '\x7d']
  | .obj (f :: l) => '\x7b' :: ((encField f ++ encFields l) ++ ['\x7d'])

/-- Rendering of the second and later array items, each preceded by a comma. -/
def encItems : List Json → List Char
  | [] => []
  | j :: l => ',' :: (encJson j ++ encItems l)

/-- Rendering of one object field: quoted key, colon, value. -/
def encField : String × Json → List Char
  | (k, v) => '"' :: (encStrChars k.data ++ ('"' :: ':' :: encJson v))

/-- Rendering of the second and later object fields, each preceded by a comma. -/
def encFields : List (String × Json) → List Char
  | [] => []
  | f :: l => ',' :: (encField f ++ encFields l)

end

/-- Hexadecimal digit value of a character, if it is one. -/
def hexVal (c : Char) : Option Nat :=
  if '0' ≤ c ∧ c ≤ '9' then some (c.toNat - 48)
  else if 'a' ≤ c ∧ c ≤ 'f' then some (c.toNat - 87)
  else if 'A' ≤ c ∧ c ≤ 'F' then some (c.toNat - 55)
  else none

/-- Single-character string escapes accepted after a backslash. -/
def escDecode (e : Char) : Option Char :=
  if e = '"' then some '"'
  else if e = '\\' then some '\\'
  else if e = '/' then some '/'
  else if e = 'n' then some '\n'
  else if e = 't' then some '\t'
  else if e = 'r' then some '\r'
  else if e = 'b' then some '\x08'
  else if e = 'f' then some '\x0c'
  else none

/-- Parse the body of a JSON string literal (the opening quote already
consumed), returning the decoded characters and the input after the closing
quote. -/
def pStrChars : List Char → Option (List Char × List Char)
  | [] => none
  | c :: rest =>
    if c = '"' then some ([], rest)
    else if c = '\\' then
      match rest with
      | [] => none
      | e :: rest1 =>
        if e = 'u' then
          match rest1 with
          | a :: b :: c2 :: d :: rest2 =>
            match hexVal a, hexVal b, hexVal c2, hexVal d with
            | some x, some y, some z, some w =>
              match pStrChars rest2 with
              | some (s, r) => some (Char.ofNat ((((x * 16 + y) * 16 + z) * 16) + w) :: s, r)
              | none => none
            | _, _, _, _ => none
          | _ => none
        else
          match escDecode e with
          | some ch =>
            match pStrChars rest1 with
            | some (s, r) => some (ch :: s, r)
            | none => none
          | none => none
    else
      match pStrChars rest with
      | some (s, r) => some (c :: s, r)
      | none => none

/-- Decimal value of a digit-character sequence, most significant first. -/
def charsToNat (cs : List Char) : Nat :=
  cs.foldl (fun a c => 10 * a + (c.toNat - 48)) 0

/-- Parse a maximal run of decimal digits into a natural number. -/
def pNat (cs : List Char) : Option (Nat × List Char) :=
  match cs.takeWhile (fun c => c.isDigit) with
  | [] => none
  | _ :: _ => some (charsToNat (cs.takeWhile (fun c => c.isDigit)), cs.dropWhile (fun c => c.isDigit))

mutual

/-- Fuel-indexed recursive-descent parser for compact JSON values; models
JSON.parse on the output shape of JSON.stringify. -/
def pJson : Nat → List Char → Option (Json × List Char)
  | 0, _ => none
  | fuel + 1, cs =>
    match cs with
    | [] => none
    | c :: rest =>
      if c = 'n' then
        match rest with
        | 'u' :: 'l' :: 'l' :: r => some (.null, r)
        | _ => none
      else if c = 't' then
        match rest with
        | 'r' :: 'u' :: 'e' :: r => some (.bool true, r)
        | _ => none
      else if c = 'f' then
        match rest with
        | 'a' :: 'l' :: 's' :: 'e' :: r => some (.bool false, r)
        | _ => none
      else if c = '"' then
        match pStrChars rest with
        | some (s, r) => some (.str (String.mk s), r)
        | none => none
      else if c = '[' then
        match rest with
        | [] => none
        | r0 :: rr =>
          if r0 = ']' then some (.arr [], rr)
          else
            match pItems fuel (r0 :: rr) with
            | some (l, r) => some (.arr l, r)
            | none => none
      else if c = '\x7b' then
        match rest with
        | [] => none
        | r0 :: rr =>
          if r0 = '\x7d' then some (.obj [], rr)
          else
            match pFields fuel (r0 :: rr) with
            | some (l, r) => some (.obj l, r)
            | none => none
      else if c = '-' then
        match pNat rest with
        | some (n, r) => some (.num (-(n : Int)), r)
        | none => none
      else if c.isDigit then
        match pNat (c :: rest) with
        | some (n, r) => some (.num (n : Int), r)
        | none => none
      else none

/-- Parse one or more comma-separated array items up to a closing bracket. -/
def pItems : Nat → List Char → Option (List Json × List Char)
  | 0, _ => none
  | fuel + 1, cs =>
    match pJson fuel cs with
    | some (j, rest) =>
      match rest with
      | ']' :: r1 => some ([j], r1)
      | ',' :: r1 =>
        match pItems fuel r1 with
        | some (l, r2) => some (j :: l, r2)
        | none => none
      | _ => none
    | none => none

/-- Parse one or more comma-separated object fields up to a closing brace. -/
def pFields : Nat → List Char → Option (List (String × Json) × List Char)
  | 0, _ => none
  | fuel + 1, cs =>
    match cs with
    | '"' :: rest =>
      match pStrChars rest with
      | some (k, rest1) =>
        match rest1 with
        | ':' :: rest2 =>
          match pJson fuel rest2 with
          | some (v, rest3) =>
            match rest3 with
            | '\x7d' :: r4 => some ([(String.mk k, v)], r4)
            | ',' :: r4 =>
              match pFields fuel r4 with
              | some (l, r5) => some ((String.mk k, v) :: l, r5)
              | none => none
            | _ => none
          | none => none
        | _ => none
      | none => none
    | _ => none

end

/-- JSON.stringify: compact textual rendering of a JSON value. -/
def stringifyJson (j : Json) : String := String.mk (encJson j)

/-- JSON.parse: parse an entire string as one JSON value, rejecting trailing
input; failure (an exception in JavaScript) is modelled as none. -/
def parseJson (s : String) : Option Json :=
  match pJson (s.data.length + 1) s.data with
  | some (j, []) => some j
  | _ => none

/-- The three views of the application (source: parseHash in App.jsx). -/
inductive Route where
  | search : Route
  | favorites : Route
  | details (id : String) : Route
deriving DecidableEq

/-- JavaScript String.prototype.split with separator "/": splits a character
list at every slash; the empty input yields one empty part. -/
def splitSlash : List Char → List (List Char)
  | [] => [[]]
  | c :: rest =>
    if c = '/' then [] :: splitSlash rest
    else
      match splitSlash rest with
      | [] => [[c]]
      | s :: ss => (c :: s) :: ss

/-- Route dispatch on the split parts, exactly as in parseHash: a first part
"detalhes" with a nonempty second part gives the details view with that
second part as id; otherwise a first part "favoritos" gives the favorites
view; everything else falls back to the search view. -/
def routeOfParts : List (List Char) → Route
  | p0 :: p1 :: _ =>
    if p0 = "detalhes".data ∧ p1 ≠ [] then .details (String.mk p1)
    else if p0 = "favoritos".data then .favorites
    else .search
  | p0 :: [] => if p0 = "favoritos".data then .favorites else .search
  | [] => .search

/-- The body of parseHash after stripping: empty means the search view,
otherwise split on slashes and dispatch. -/
def routeOfChars (h : List Char) : Route :=
  if h = [] then .search else routeOfParts (splitSlash h)

/-- The replace of the anchored pattern hash-mark-then-optional-slash: it
strips a leading hash mark together with at most one slash right after it,
and strips nothing when no hash mark leads. -/
def stripHashMark : List Char → List Char
  | [] => []
  | c :: rest =>
    if c = '#' then
      match rest with
      | [] => []
      | c2 :: rest2 => if c2 = '/' then rest2 else c2 :: rest2
    else c :: rest

/-- parseHash from App.jsx: the value of window.location.hash is stripped of
a leading hash mark and at most one following slash, then dispatched. -/
def parseHash (hash : String) : Route := routeOfChars (stripHashMark hash.data)

/-- Route of a URL fragment: the browser reports an empty hash for an empty
fragment and otherwise prefixes the fragment with a hash mark. -/
def routeOfFragment (frag : String) : Route :=
  parseHash (if frag = "" then "" else "#" ++ frag)

/-- Dropping at most one leading slash of a fragment. -/
def dropOneSlash : List Char → List Char
  | [] => []
  | c :: rest => if c = '/' then rest else c :: rest

/-- The amended routing rules, stated on the fragment itself: at most one
leading slash of the fragment is dropped, an empty remainder is the search
view, and otherwise the remainder is split on slashes and dispatched by the
segment rules (details by first segment "detalhes" with the following
nonempty segment as the id, favorites by first segment "favoritos" alone,
search for everything else). -/
def fragmentRouteRules (frag : String) : Route := routeOfChars (dropOneSlash frag.data)

/-- The localStorage contents: a partial map from keys to stored strings. -/
abbrev Storage : Type := String → Option String

/-- The read half of useLocalStorage: getItem then JSON.parse inside a
try/catch.  A missing key, an empty stored string (falsy in JavaScript), or
a parse failure all yield the supplied initial value; no exception escapes. -/
def lsGet (st : Storage) (key : String) (initialValue : Json) : Json :=
  match st key with
  | none => initialValue
  | some s => if s = "" then initialValue else (parseJson s).getD initialValue

/-- The read half of useLocalStorage when the storage itself is unavailable
and getItem throws: the catch returns the initial value. -/
def lsGetUnavailable (initialValue : Json) : Json := initialValue

/-- The write half of useLocalStorage: setItem of the JSON.stringify of the
value under the key. -/
def lsSet (st : Storage) (key : String) (v : Json) : Storage :=
  fun k => if k = key then some (stringifyJson v) else st k

/-- A storage with nothing written. -/
def emptyStorage : Storage := fun _ => none

/-- The minimal fields of a movie object that toggleFavorite reads.  The
source field named Type is called TypeField here, since Type is reserved in
Lean. -/
structure Movie where
  imdbID : String
  Title : String
  Year : String
  Poster : String
  TypeField : String
deriving DecidableEq

/-- A persisted favorite record: exactly the five fields written by
toggleFavorite in App.jsx. -/
structure FavRecord where
  imdbID : String
  Title : String
  Year : String
  Poster : String
  TypeField : String
deriving DecidableEq

/-- The favorites mapping: a JavaScript object keyed by imdbID, modelled as
an association list in insertion order. -/
abbrev FavMap : Type := List (String × FavRecord)

/-- Property lookup on the favorites object: first (only) entry with the key. -/
def findRecord : FavMap → String → Option FavRecord
  | [], _ => none
  | (k, r) :: rest, id => if k = id then some r else findRecord rest id

/-- The FavoriteRecord derived from an item, as built in toggleFavorite. -/
def favRecordOf (m : Movie) : FavRecord :=
  { imdbID := m.imdbID, Title := m.Title, Year := m.Year, Poster := m.Poster, TypeField := m.TypeField }

/-- toggleFavorite from App.jsx: if the id is present delete the entry,
otherwise append a record derived from the item. -/
def toggleFavorite (m : FavMap) (movie : Movie) : FavMap :=
  if (findRecord m movie.imdbID).isSome then
    m.filter (fun p => p.1 ≠ movie.imdbID)
  else
    m ++ [(movie.imdbID, favRecordOf movie)]

/-- JSON rendering of one favorite record, field order as written by the code. -/
def recToJson (r : FavRecord) : Json :=
  .obj [("imdbID", .str r.imdbID), ("Title", .str r.Title), ("Year", .str r.Year),
        ("Poster", .str r.Poster), ("Type", .str r.TypeField)]

/-- JSON rendering of the favorites mapping, the object that useLocalStorage
persists. -/
def favToJson (m : FavMap) : Json := .obj (m.map fun p => (p.1, recToJson p.2))

/-- Every key of the favorites mapping equals the id field of its record. -/
def FavInv (m : FavMap) : Prop := ∀ p ∈ m, p.2.imdbID = p.1

/-- Property access on an object field list: first field with the name. -/
def fieldVal : List (String × Json) → String → Option Json
  | [], _ => none
  | (k, v) :: rest, name => if k = name then some v else fieldVal rest name

/-- Property access on a JSON value: defined on objects, undefined elsewhere
(JavaScript member access on non-objects used here only yields undefined). -/
def getField (j : Json) (name : String) : Option Json :=
  match j with
  | .obj fs => fieldVal fs name
  | _ => none

/-- The key invariant read off the persisted JSON object: every field value
is an object whose imdbID member is the string of the field key. -/
def JsonFavInv : Json → Prop
  | .obj fs => ∀ p ∈ fs, ∃ inner, p.2 = Json.obj inner ∧ fieldVal inner "imdbID" = some (.str p.1)
  | _ => False


/-- JavaScript truthiness of a JSON value: undefined is handled at the use
sites as a missing field; null, false, zero and the empty string are falsy,
every object and array is truthy. -/
def jsTruthy : Json → Bool
  | .null => false
  | .bool b => b
  | .num i => i != 0
  | .str s => s != ""
  | .arr _ => true
  | .obj _ => true

/-- The value of an expression field-or-default where the default is a
string: a present, truthy string field is taken, otherwise the default.
The collaborator API delivers its Error member as a string, so truthy
values of other shapes do not occur and are modelled by the default. -/
def errMsgOr (f : Option Json) (d : String) : String :=
  match f with
  | some (.str s) => if s = "" then d else s
  | _ => d

/-- JavaScript Number conversion, modelled on the values the application
meets: integral numbers convert to themselves and strings of decimal digits
to their value; every other input is NaN, modelled as none.  (Full Number
semantics with signs, fractions and whitespace are out of scope; the
collaborator reports totalResults as a digit string.) -/
def toNumber : Json → Option Int
  | .num i => some i
  | .str s => if s.data ≠ [] ∧ s.data.all (fun c => c.isDigit) then some (charsToNat s.data : Int) else none
  | _ => none

/-- The expression Number(x or 0): a missing or falsy field gives zero,
otherwise the Number conversion of the field. -/
def numOrZero (f : Option Json) : Option Int :=
  match f with
  | none => some 0
  | some j => if jsTruthy j then toNumber j else some 0

/-- The strict comparison data.Response === "False". -/
def isFalseResponse (data : Json) : Bool :=
  match getField data "Response" with
  | some (.str s) => s = "False"
  | _ => false

/-- State owned by SearchView: result list, total count (none models NaN),
loading flag and error message. -/
structure SearchState where
  results : List Json
  total : Option Int
  loading : Bool
  error : String

/-- The initial SearchView state from its useState calls. -/
def initialSearchState : SearchState :=
  { results := [], total := some 0, loading := false, error := "" }

/-- The request a search issues: the credential, term and page that doSearch
interpolates into the OMDb query string. -/
structure SearchRequest where
  apiKey : String
  term : String
  page : Nat
deriving DecidableEq

/-- The outcome of one fetch-and-decode: either a decoded JSON reply, or a
thrown network or parse failure. -/
inductive FetchOutcome where
  | reply (data : Json) : FetchOutcome
  | thrown : FetchOutcome

/-- The generic retry message of the search catch branch. -/
def searchFailMsg : String := "Ocorreu um erro na busca. Verifique sua conexão e tente novamente."

/-- The fallback message when a Response False reply carries no Error. -/
def noResultsMsg : String := "Nenhum resultado encontrado."

/-- doSearch from App.jsx as a state transition.  An empty term or missing
credential returns immediately: no request is issued and the state is
untouched.  Otherwise one request is issued; a Response False reply clears
the results, zeroes the total and stores the reply message (or the
fallback); any other reply stores the Search array (or empty) and the
converted totalResults and clears the error; a thrown failure stores only
the generic message — the previous results and total are left in place.
Loading is raised for the duration of the call and lowered in the finally
block, so every completed transition ends with loading false. -/
def doSearch (st : SearchState) (q apiKey : String) (p : Nat) (outcome : FetchOutcome) :
    SearchState × Option SearchRequest :=
  if q = "" ∨ apiKey = "" then (st, none)
  else
    match outcome with
    | .thrown =>
      ({ st with error := searchFailMsg, loading := false }, some ⟨apiKey, q, p⟩)
    | .reply data =>
      if isFalseResponse data then
        ({ results := [], total := some 0, loading := false,
           error := errMsgOr (getField data "Error") noResultsMsg }, some ⟨apiKey, q, p⟩)
      else
        ({ results := (match getField data "Search" with | some (.arr l) => l | _ => []),
           total := numOrZero (getField data "totalResults"), loading := false,
           error := "" }, some ⟨apiKey, q, p⟩)

/-- State owned by DetailsView: loading flag, error message and the loaded
record (null at mount and after a not-found reply). -/
structure DetailState where
  loading : Bool
  error : String
  data : Option Json

/-- The fallback message when a details Response False reply has no Error. -/
def detailsNoneMsg : String := "Não foi possível obter os detalhes."

/-- The generic message of the details catch branch. -/
def detailsFailMsg : String := "Ocorreu um erro ao carregar os detalhes."

/-- load from DetailsView as a state transition.  A Response False reply
stores the reply message (or the fallback) and clears the data to null; any
other reply stores the record and clears the error; a thrown failure stores
only the generic message — the previous data is left in place.  Loading
ends false through the finally block. -/
def loadDetails (st : DetailState) (outcome : FetchOutcome) : DetailState :=
  match outcome with
  | .thrown => { st with error := detailsFailMsg, loading := false }
  | .reply json =>
    if isFalseResponse json then
      { loading := false, error := errMsgOr (getField json "Error") detailsNoneMsg, data := none }
    else
      { loading := false, error := "", data := some json }

/-- totalPages from SearchView: the ceiling of the total divided by the
fixed page size ten, computed by Math.ceil on an exact division. -/
def totalPages (total : Int) : Int := Int.ceil ((total : ℚ) / 10)

/-- A reply is well formed per the collaborator interface of the spec when
it either reports failure (Response False with an optional string Error) or
success with a Response True marker, a nonempty Search array of at most the
page size ten, and a totalResults digit string. -/
def WFSearchData (d : Json) : Prop :=
  (getField d "Response" = some (.str "False") ∧
    (getField d "Error" = none ∨ ∃ s, getField d "Error" = some (.str s)))
  ∨ (getField d "Response" = some (.str "True")
      ∧ (∃ items, getField d "Search" = some (.arr items) ∧ items ≠ [] ∧ items.length ≤ 10)
      ∧ (∃ s, getField d "totalResults" = some (.str s) ∧ s.data ≠ [] ∧ s.data.all (fun c => c.isDigit)))

/-- A character-list predicate fails at the head (vacuously for empty). -/
def headNot (p : Char → Bool) : List Char → Prop
  | [] => True
  | c :: _ => p c = false

/-- The characters of a String.mk are the given list. -/
theorem data_mk (cs : List Char) : (String.mk cs).data = cs := rfl

/-- A string is the String.mk of its characters. -/
theorem mk_data (s : String) : String.mk s.data = s := by cases s; rfl

/-- A string is empty exactly when its character list is. -/
theorem str_eq_empty_iff (s : String) : s = "" ↔ s.data = [] := by
  constructor
  · intro h; rw [h]
  · intro h; rw [← mk_data s, h]

/-- Code of a decimal digit character. -/
theorem digChar_toNat (d : Nat) (hd : d < 10) : (digChar d).toNat = 48 + d := by
  interval_cases d <;> rfl

/-- A decimal digit character is a digit. -/
theorem digChar_isDigit (d : Nat) (hd : d < 10) : (digChar d).isDigit = true := by
  interval_cases d <;> rfl

/-- The hexadecimal reading inverts the hexadecimal digit rendering. -/
theorem hexVal_hexDig (n : Nat) (hn : n < 16) : hexVal (hexDig n) = some n := by
  interval_cases n <;> rfl

/-- Every character produced by the digit extraction is a digit. -/
theorem natDigitsAux_digits : ∀ f n c, c ∈ natDigitsAux f n → c.isDigit = true := by
  intro f
  induction f with
  | zero => intro n c h; simp [natDigitsAux] at h
  | succ f ih =>
    intro n c h
    rw [natDigitsAux] at h
    by_cases hn : n = 0
    · rw [if_pos hn] at h; simp at h
    · rw [if_neg hn] at h
      rcases List.mem_cons.mp h with h | h
      · subst h; exact digChar_isDigit _ (Nat.mod_lt _ (by norm_num))
      · exact ih _ _ h

/-- Folding the digit characters most-significant-last recovers the number. -/
theorem foldr_natDigitsAux : ∀ f n, n ≤ f →
    (natDigitsAux f n).foldr (fun c a => 10 * a + (c.toNat - 48)) 0 = n := by
  intro f
  induction f with
  | zero => intro n h; interval_cases n; rfl
  | succ f ih =>
    intro n h
    by_cases hn : n = 0
    · subst hn; rfl
    · rw [natDigitsAux, if_neg hn]
      simp only [List.foldr_cons]
      rw [ih (n / 10) (by omega), digChar_toNat _ (Nat.mod_lt _ (by norm_num))]
      omega

/-- The decimal rendering of a natural number is never empty. -/
theorem encNat_ne_nil (n : Nat) : encNat n ≠ [] := by
  rw [encNat]
  by_cases hn : n = 0
  · simp [hn]
  · rw [if_neg hn]
    simp only [ne_eq, List.reverse_eq_nil_iff]
    cases n with
    | zero => exact absurd rfl hn
    | succ m => rw [natDigitsAux, if_neg hn]; simp

/-- Every character of the decimal rendering is a digit. -/
theorem encNat_digits (n : Nat) : ∀ c ∈ encNat n, c.isDigit = true := by
  intro c hc
  rw [encNat] at hc
  by_cases hn : n = 0
  · rw [if_pos hn] at hc; simp at hc; subst hc; rfl
  · rw [if_neg hn, List.mem_reverse] at hc
    exact natDigitsAux_digits _ _ _ hc

/-- Reading the decimal rendering recovers the number. -/
theorem charsToNat_encNat (n : Nat) : charsToNat (encNat n) = n := by
  rw [charsToNat, encNat]
  by_cases hn : n = 0
  · rw [if_pos hn]; subst hn; rfl
  · rw [if_neg hn, List.foldl_reverse]
    exact foldr_natDigitsAux n n le_rfl

/-- takeWhile and dropWhile split an all-true prefix off an appended list
whose remainder starts false. -/
theorem takeWhile_append_all (p : Char → Bool) :
    ∀ (l r : List Char), (∀ c ∈ l, p c = true) → headNot p r →
      (l ++ r).takeWhile p = l ∧ (l ++ r).dropWhile p = r := by
  intro l
  induction l with
  | nil =>
    intro r _ hr
    cases r with
    | nil => exact ⟨rfl, rfl⟩
    | cons c r =>
      simp only [headNot] at hr
      simp [List.takeWhile_cons, List.dropWhile_cons, hr]
  | cons c l ih =>
    intro r h hr
    have hc : p c = true := h c (List.mem_cons_self c l)
    have := ih r (fun x hx => h x (List.mem_cons_of_mem c hx)) hr
    simp [List.takeWhile_cons, List.dropWhile_cons, hc, this.1, this.2]

/-- The number parser consumes exactly the decimal rendering when the
remainder does not begin with a digit. -/
theorem pNat_append (n : Nat) (rest : List Char) (hr : headNot (fun c => c.isDigit) rest) :
    pNat (encNat n ++ rest) = some (n, rest) := by
  obtain ⟨ht, hd⟩ := takeWhile_append_all (fun c => c.isDigit) (encNat n) rest (encNat_digits n) hr
  rw [pNat, ht, hd, charsToNat_encNat]
  rcases he : encNat n with _ | ⟨c, cs⟩
  · exact absurd he (encNat_ne_nil n)
  · rfl

/-- The string-body parser inverts the escape rendering, consuming exactly
up to the closing quote. -/
theorem pStrChars_encStr : ∀ (cs rest : List Char),
    pStrChars (encStrChars cs ++ ('"' :: rest)) = some (cs, rest) := by
  intro cs
  induction cs with
  | nil =>
    intro rest
    rw [show encStrChars [] ++ ('"' :: rest) = '"' :: rest from rfl, pStrChars.eq_def]
    simp
  | cons c cs ih =>
    intro rest
    rw [encStrChars]
    by_cases h1 : c = '"'
    · subst h1
      rw [show escChar '"' = ['\\', '"'] from rfl]
      simp only [List.cons_append, List.nil_append]
      rw [pStrChars.eq_def]
      simp [escDecode, ih]
    · by_cases h2 : c = '\\'
      · subst h2
        rw [show escChar '\\' = ['\\', '\\'] from rfl]
        simp only [List.cons_append, List.nil_append]
        rw [pStrChars.eq_def]
        simp [escDecode, ih]
      · by_cases h3 : c.toNat < 32
        · have hhi : c.toNat / 16 < 16 := by omega
          have hlo : c.toNat % 16 < 16 := by omega
          rw [escChar, if_neg h1, if_neg h2, if_pos h3]
          simp only [List.cons_append, List.nil_append]
          rw [pStrChars.eq_def]
          simp only [reduceIte, show hexVal '0' = some 0 from rfl,
            hexVal_hexDig _ hhi, hexVal_hexDig _ hlo, ih]
          have harg : (((0 * 16 + 0) * 16 + c.toNat / 16) * 16) + c.toNat % 16 = c.toNat := by
            omega
          rw [harg, Char.ofNat_toNat]
          simp
        · rw [escChar, if_neg h1, if_neg h2, if_neg h3]
          simp only [List.cons_append, List.nil_append]
          rw [pStrChars.eq_def]
          simp [h1, h2, ih]

/-- The rendering of a JSON value is never empty. -/
theorem encJson_ne_nil (j : Json) : encJson j ≠ [] := by
  cases j with
  | null => simp [encJson]
  | bool b => cases b <;> simp [encJson]
  | num i =>
    rw [encJson, encInt]
    by_cases hi : i < 0
    · rw [if_pos hi]; simp
    · rw [if_neg hi]; exact encNat_ne_nil _
  | str s => simp [encJson]
  | arr l => cases l <;> simp [encJson]
  | obj l => cases l <;> simp [encJson]

/-- The rendering of a JSON value has positive length. -/
theorem encJson_length_pos (j : Json) : 0 < (encJson j).length := by
  cases he : encJson j with
  | nil => exact absurd he (encJson_ne_nil j)
  | cons c cs => simp

/-- A digit character is none of the leading literal characters the value
parser tests for. -/
theorem isDigit_ne_lits (c : Char) (h : c.isDigit = true) :
    c ≠ 'n' ∧ c ≠ 't' ∧ c ≠ 'f' ∧ c ≠ '"' ∧ c ≠ '[' ∧ c ≠ '\x7b' ∧ c ≠ '-' := by
  refine ⟨?_, ?_, ?_, ?_, ?_, ?_, ?_⟩ <;>
    (intro hc; subst hc; exact absurd h (by decide))

/-- A digit character is not a closing bracket or brace. -/
theorem isDigit_ne_closers (c : Char) (h : c.isDigit = true) : c ≠ ']' ∧ c ≠ '\x7d' := by
  refine ⟨?_, ?_⟩ <;> (intro hc; subst hc; exact absurd h (by decide))

/-- The head of a decimal rendering is a digit. -/
theorem encNat_head_digit (n : Nat) (c : Char) (cs : List Char) (h : encNat n = c :: cs) :
    c.isDigit = true :=
  encNat_digits n c (by rw [h]; exact List.mem_cons_self c cs)

/-- The first character of a rendered JSON value is never a closing bracket
or closing brace. -/
theorem encJson_head_ne_closers (j : Json) (c : Char) (cs : List Char)
    (h : encJson j = c :: cs) : c ≠ ']' ∧ c ≠ '\x7d' := by
  cases j with
  | null => rw [encJson] at h; cases h; decide
  | bool b => cases b <;> (rw [encJson] at h; cases h; decide)
  | num i =>
    rw [encJson, encInt] at h
    by_cases hi : i < 0
    · rw [if_pos hi] at h; cases h; decide
    · rw [if_neg hi] at h
      exact isDigit_ne_closers c (encNat_head_digit _ c cs h)
  | str s => rw [encJson] at h; cases h; decide
  | arr l =>
    cases l with
    | nil => rw [encJson] at h; cases h; decide
    | cons j2 l2 => rw [encJson] at h; cases h; decide
  | obj l =>
    cases l with
    | nil => rw [encJson] at h; cases h; decide
    | cons f2 l2 => rw [encJson] at h; cases h; decide

/-- One unfolding step of the item parser. -/
theorem pItems_succ (fuel : Nat) (cs : List Char) :
    pItems (fuel + 1) cs =
      match pJson fuel cs with
      | some (j, rest) =>
        match rest with
        | ']' :: r1 => some ([j], r1)
        | ',' :: r1 =>
          match pItems fuel r1 with
          | some (l, r2) => some (j :: l, r2)
          | none => none
        | _ => none
      | none => none := rfl

/-- One unfolding step of the field parser. -/
theorem pFields_succ (fuel : Nat) (cs : List Char) :
    pFields (fuel + 1) cs =
      match cs with
      | '"' :: rest =>
        match pStrChars rest with
        | some (k, rest1) =>
          match rest1 with
          | ':' :: rest2 =>
            match pJson fuel rest2 with
            | some (v, rest3) =>
              match rest3 with
              | '\x7d' :: r4 => some ([(String.mk k, v)], r4)
              | ',' :: r4 =>
                match pFields fuel r4 with
                | some (l, r5) => some ((String.mk k, v) :: l, r5)
                | none => none
              | _ => none
            | none => none
          | _ => none
        | none => none
      | _ => none := rfl

/-- The value parser behind an opening bracket: an immediate closing
bracket is the empty array, anything else parses items. -/
theorem pJson_bracket_step (fuel : Nat) (r0 : Char) (rr : List Char) :
    pJson (fuel + 1) ('[' :: r0 :: rr) =
      if r0 = ']' then some (.arr [], rr)
      else
        match pItems fuel (r0 :: rr) with
        | some (l, r) => some (Json.arr l, r)
        | none => none := rfl

/-- The value parser behind an opening brace: an immediate closing brace is
the empty object, anything else parses fields. -/
theorem pJson_brace_step (fuel : Nat) (r0 : Char) (rr : List Char) :
    pJson (fuel + 1) ('\x7b' :: r0 :: rr) =
      if r0 = '\x7d' then some (.obj [], rr)
      else
        match pFields fuel (r0 :: rr) with
        | some (l, r) => some (Json.obj l, r)
        | none => none := rfl

/-- The value parser behind an opening quote reads a string literal. -/
theorem pJson_quote_head (fuel : Nat) (rest : List Char) :
    pJson (fuel + 1) ('"' :: rest) =
      match pStrChars rest with
      | some (s, r) => some (.str (String.mk s), r)
      | none => none := rfl

/-- The value parser behind a minus sign reads a number and negates it. -/
theorem pJson_minus_head (fuel : Nat) (rest : List Char) :
    pJson (fuel + 1) ('-' :: rest) =
      match pNat rest with
      | some (n, r) => some (.num (-(n : Int)), r)
      | none => none := rfl

/-- A digit character is one of the ten digit characters. -/
theorem isDigit_enum (c : Char) (h : c.isDigit = true) :
    c = '0' ∨ c = '1' ∨ c = '2' ∨ c = '3' ∨ c = '4' ∨
    c = '5' ∨ c = '6' ∨ c = '7' ∨ c = '8' ∨ c = '9' := by
  simp only [Char.isDigit, decide_eq_true_eq, Bool.and_eq_true] at h
  obtain ⟨h1, h2⟩ := h
  have h1n : 48 ≤ c.toNat := h1
  have h2n : c.toNat ≤ 57 := h2
  have hv : c.toNat = 48 ∨ c.toNat = 49 ∨ c.toNat = 50 ∨ c.toNat = 51 ∨ c.toNat = 52 ∨
      c.toNat = 53 ∨ c.toNat = 54 ∨ c.toNat = 55 ∨ c.toNat = 56 ∨ c.toNat = 57 := by omega
  have hc := (Char.ofNat_toNat c).symm
  rcases hv with hv | hv | hv | hv | hv | hv | hv | hv | hv | hv <;>
    rw [hv] at hc <;> simp [hc]

/-- The value parser at a digit head falls through the literal tests and
reads a number. -/
theorem pJson_digit_head (fuel : Nat) (c : Char) (rest : List Char) (h : c.isDigit = true) :
    pJson (fuel + 1) (c :: rest) =
      match pNat (c :: rest) with
      | some (n, r) => some (Json.num (n : Int), r)
      | none => none := by
  rcases isDigit_enum c h with hc | hc | hc | hc | hc | hc | hc | hc | hc | hc <;>
    (subst hc; rfl)

/-- The JSON parser inverts the JSON renderer: with fuel at least the
rendered length, a rendered value followed by a remainder that does not
begin with a digit parses back to the value, consuming exactly the
rendering; likewise for nonempty item lists before a closing bracket and
nonempty field lists before a closing brace. -/
theorem parse_encJson : ∀ fuel : Nat,
    (∀ (j : Json) (rest : List Char), (encJson j).length ≤ fuel →
      headNot (fun c => c.isDigit) rest →
      pJson fuel (encJson j ++ rest) = some (j, rest)) ∧
    (∀ (j : Json) (l : List Json) (rest : List Char),
      (encJson j).length + (encItems l).length + 1 ≤ fuel →
      headNot (fun c => c.isDigit) rest →
      pItems fuel ((encJson j ++ encItems l) ++ (']' :: rest)) = some (j :: l, rest)) ∧
    (∀ (k : String) (v : Json) (l : List (String × Json)) (rest : List Char),
      (encField (k, v)).length + (encFields l).length + 1 ≤ fuel →
      headNot (fun c => c.isDigit) rest →
      pFields fuel ((encField (k, v) ++ encFields l) ++ ('\x7d' :: rest)) =
        some ((k, v) :: l, rest)) := by
  intro fuel
  induction fuel with
  | zero =>
    refine ⟨?_, ?_, ?_⟩
    · intro j rest hlen _
      have := encJson_length_pos j
      omega
    · intro j l rest hlen _
      omega
    · intro k v l rest hlen _
      omega
  | succ fuel ih =>
    obtain ⟨ih1, ih2, ih3⟩ := ih
    refine ⟨?_, ?_, ?_⟩
    · intro j rest hlen hr
      cases j with
      | null => rfl
      | bool b => cases b <;> rfl
      | num i =>
        rw [show encJson (.num i) = encInt i from rfl, encInt]
        by_cases hi : i < 0
        · rw [if_pos hi]
          simp only [List.cons_append]
          rw [pJson_minus_head, pNat_append _ _ hr]
          show some (Json.num (-(i.natAbs : Int)), rest) = some (Json.num i, rest)
          have : -(i.natAbs : Int) = i := by omega
          rw [this]
        · rw [if_neg hi]
          obtain ⟨c, cs, hc⟩ := List.exists_cons_of_ne_nil (encNat_ne_nil i.toNat)
          have hdig := encNat_head_digit _ _ _ hc
          rw [hc]
          simp only [List.cons_append]
          rw [pJson_digit_head fuel c _ hdig, ← List.cons_append, ← hc,
            pNat_append _ _ hr]
          show some (Json.num ((i.toNat : Nat) : Int), rest) = some (Json.num i, rest)
          have : ((i.toNat : Nat) : Int) = i := by omega
          rw [this]
      | str s =>
        rw [show encJson (.str s) ++ rest =
          '"' :: (encStrChars s.data ++ ('"' :: rest)) by
            rw [show encJson (.str s) = '"' :: (encStrChars s.data ++ ['"']) from rfl]
            simp]
        rw [pJson_quote_head, pStrChars_encStr]
      | arr l =>
        cases l with
        | nil => rfl
        | cons j2 l2 =>
          have hLa : (encJson (Json.arr (j2 :: l2))).length =
              (encJson j2).length + (encItems l2).length + 2 := by
            rw [show encJson (.arr (j2 :: l2)) =
              '[' :: ((encJson j2 ++ encItems l2) ++ [']']) from rfl]
            simp only [List.length_cons, List.length_append, List.length_nil]
            try omega
          obtain ⟨c0, cs0, hc0⟩ := List.exists_cons_of_ne_nil (encJson_ne_nil j2)
          have h0 := (encJson_head_ne_closers j2 c0 cs0 hc0).1
          rw [show encJson (.arr (j2 :: l2)) ++ rest =
            '[' :: ((encJson j2 ++ encItems l2) ++ (']' :: rest)) by
              rw [show encJson (.arr (j2 :: l2)) =
                '[' :: ((encJson j2 ++ encItems l2) ++ [']']) from rfl]
              simp]
          rw [show (encJson j2 ++ encItems l2) ++ (']' :: rest) =
            c0 :: (cs0 ++ encItems l2 ++ (']' :: rest)) by rw [hc0]; simp]
          rw [pJson_bracket_step, if_neg h0]
          rw [show c0 :: (cs0 ++ encItems l2 ++ (']' :: rest)) =
            (encJson j2 ++ encItems l2) ++ (']' :: rest) by rw [hc0]; simp]
          rw [ih2 j2 l2 rest (by omega) hr]
      | obj l =>
        cases l with
        | nil => rfl
        | cons f2 l2 =>
          obtain ⟨k2, v2⟩ := f2
          have hLo : (encJson (Json.obj ((k2, v2) :: l2))).length =
              (encField (k2, v2)).length + (encFields l2).length + 2 := by
            rw [show encJson (.obj ((k2, v2) :: l2)) =
              '\x7b' :: ((encField (k2, v2) ++ encFields l2) ++ ['\x7d']) from rfl]
            simp only [List.length_cons, List.length_append, List.length_nil]
            try omega
          have hfe : encField (k2, v2) =
              '"' :: (encStrChars k2.data ++ ('"' :: ':' :: encJson v2)) := rfl
          have hne : encField (k2, v2) ≠ [] := by rw [hfe]; simp
          obtain ⟨c0, cs0, hc0⟩ := List.exists_cons_of_ne_nil hne
          have h0 : c0 ≠ '\x7d' := by
            rw [hfe] at hc0
            have : c0 = '"' := (List.cons.injEq _ _ _ _ ▸ hc0).1.symm
            rw [this]; decide
          rw [show encJson (.obj ((k2, v2) :: l2)) ++ rest =
            '\x7b' :: ((encField (k2, v2) ++ encFields l2) ++ ('\x7d' :: rest)) by
              rw [show encJson (.obj ((k2, v2) :: l2)) =
                '\x7b' :: ((encField (k2, v2) ++ encFields l2) ++ ['\x7d']) from rfl]
              simp]
          rw [show (encField (k2, v2) ++ encFields l2) ++ ('\x7d' :: rest) =
            c0 :: (cs0 ++ encFields l2 ++ ('\x7d' :: rest)) by rw [hc0]; simp]
          rw [pJson_brace_step, if_neg h0]
          rw [show c0 :: (cs0 ++ encFields l2 ++ ('\x7d' :: rest)) =
            (encField (k2, v2) ++ encFields l2) ++ ('\x7d' :: rest) by rw [hc0]; simp]
          rw [ih3 k2 v2 l2 rest (by omega) hr]
    · intro j l rest hlen hr
      have hr2 : headNot (fun c => c.isDigit) (encItems l ++ (']' :: rest)) := by
        cases l with
        | nil => show (']' : Char).isDigit = false; decide
        | cons j2 l2 => show (',' : Char).isDigit = false; decide
      rw [pItems_succ]
      rw [show (encJson j ++ encItems l) ++ (']' :: rest) =
        encJson j ++ (encItems l ++ (']' :: rest)) by simp]
      rw [ih1 j (encItems l ++ (']' :: rest)) (by omega) hr2]
      cases l with
      | nil => rfl
      | cons j2 l2 =>
        have hIl : (encItems (j2 :: l2)).length =
            (encJson j2).length + (encItems l2).length + 1 := by
          rw [show encItems (j2 :: l2) = ',' :: (encJson j2 ++ encItems l2) from rfl]
          simp only [List.length_cons, List.length_append]
          try omega
        have hj := encJson_length_pos j
        rw [show encItems (j2 :: l2) ++ (']' :: rest) =
          ',' :: ((encJson j2 ++ encItems l2) ++ (']' :: rest)) by
            rw [show encItems (j2 :: l2) = ',' :: (encJson j2 ++ encItems l2) from rfl]
            simp]
        show (match pItems fuel ((encJson j2 ++ encItems l2) ++ (']' :: rest)) with
          | some (l3, r4) => some (j :: l3, r4)
          | none => none) = some (j :: j2 :: l2, rest)
        rw [ih2 j2 l2 rest (by omega) hr]
    · intro k v l rest hlen hr
      have hfe : encField (k, v) =
          '"' :: (encStrChars k.data ++ ('"' :: ':' :: encJson v)) := rfl
      have hFl : (encField (k, v)).length =
          (encStrChars k.data).length + (encJson v).length + 3 := by
        rw [hfe]
        simp only [List.length_cons, List.length_append]
        try omega
      have hr3 : headNot (fun c => c.isDigit) (encFields l ++ ('\x7d' :: rest)) := by
        cases l with
        | nil => show ('\x7d' : Char).isDigit = false; decide
        | cons f2 l2 => show (',' : Char).isDigit = false; decide
      rw [pFields_succ]
      rw [show (encField (k, v) ++ encFields l) ++ ('\x7d' :: rest) =
        '"' :: (encStrChars k.data ++
          ('"' :: (':' :: (encJson v ++ (encFields l ++ ('\x7d' :: rest)))))) by
          rw [hfe]; simp]
      show (match pStrChars (encStrChars k.data ++
          ('"' :: (':' :: (encJson v ++ (encFields l ++ ('\x7d' :: rest)))))) with
        | some (k2, rest1) =>
          match rest1 with
          | ':' :: rest2 =>
            match pJson fuel rest2 with
            | some (v2, rest3) =>
              match rest3 with
              | '\x7d' :: r4 => some ([(String.mk k2, v2)], r4)
              | ',' :: r4 =>
                match pFields fuel r4 with
                | some (l2, r5) => some ((String.mk k2, v2) :: l2, r5)
                | none => none
              | _ => none
            | none => none
          | _ => none
        | none => none) = some ((k, v) :: l, rest)
      rw [pStrChars_encStr]
      show (match pJson fuel (encJson v ++ (encFields l ++ ('\x7d' :: rest))) with
        | some (v2, rest3) =>
          match rest3 with
          | '\x7d' :: r4 => some ([(String.mk k.data, v2)], r4)
          | ',' :: r4 =>
            match pFields fuel r4 with
            | some (l2, r5) => some ((String.mk k.data, v2) :: l2, r5)
            | none => none
          | _ => none
        | none => none) = some ((k, v) :: l, rest)
      rw [ih1 v (encFields l ++ ('\x7d' :: rest)) (by omega) hr3, mk_data]
      cases l with
      | nil => rfl
      | cons f2 l2 =>
        obtain ⟨k2, v2⟩ := f2
        have hFl2 : (encFields ((k2, v2) :: l2)).length =
            (encField (k2, v2)).length + (encFields l2).length + 1 := by
          rw [show encFields ((k2, v2) :: l2) =
            ',' :: (encField (k2, v2) ++ encFields l2) from rfl]
          simp only [List.length_cons, List.length_append]
          try omega
        rw [show encFields ((k2, v2) :: l2) ++ ('\x7d' :: rest) =
          ',' :: ((encField (k2, v2) ++ encFields l2) ++ ('\x7d' :: rest)) by
            rw [show encFields ((k2, v2) :: l2) =
              ',' :: (encField (k2, v2) ++ encFields l2) from rfl]
            simp]
        show (match pFields fuel ((encField (k2, v2) ++ encFields l2) ++ ('\x7d' :: rest)) with
          | some (l3, r5) => some ((k, v) :: l3, r5)
          | none => none) = some ((k, v) :: (k2, v2) :: l2, rest)
        rw [ih3 k2 v2 l2 rest (by omega) hr]

/-- JSON.parse inverts JSON.stringify on every modelled JSON value. -/
theorem json_roundtrip (j : Json) : parseJson (stringifyJson j) = some j := by
  rw [stringifyJson, parseJson, data_mk]
  have h := (parse_encJson ((encJson j).length + 1)).1 j [] (by omega) trivial
  rw [List.append_nil] at h
  rw [h]

/-- The stringify of a value is never the empty string. -/
theorem stringifyJson_ne_empty (j : Json) : stringifyJson j ≠ "" := by
  intro h
  exact encJson_ne_nil j (congrArg String.data h)

/-- A nonempty or-default message is nonempty. -/
theorem errMsgOr_ne_empty (f : Option Json) (d : String) (hd : d ≠ "") :
    errMsgOr f d ≠ "" := by
  rcases f with _ | j
  · exact hd
  · cases j with
    | str s =>
      show (if s = "" then d else s) ≠ ""
      by_cases hs : s = ""
      · rw [if_pos hs]; exact hd
      · rw [if_neg hs]; exact hs
    | null => exact hd
    | bool b => exact hd
    | num i => exact hd
    | arr l => exact hd
    | obj l => exact hd

/-- Lookup distributes over append, preferring the left list. -/
theorem findRecord_append (a b : FavMap) (k : String) :
    findRecord (a ++ b) k =
      match findRecord a k with
      | some r => some r
      | none => findRecord b k := by
  induction a with
  | nil => rfl
  | cons p a ih =>
    obtain ⟨k0, r0⟩ := p
    show (if k0 = k then some r0 else findRecord (a ++ b) k) = _
    by_cases h : k0 = k
    · rw [if_pos h]
      show _ = (match (if k0 = k then some r0 else findRecord a k) with
        | some r => some r | none => findRecord b k)
      rw [if_pos h]
    · rw [if_neg h, ih]
      show _ = (match (if k0 = k then some r0 else findRecord a k) with
        | some r => some r | none => findRecord b k)
      rw [if_neg h]

/-- A lookup misses exactly when no entry bears the key. -/
theorem findRecord_eq_none_iff (m : FavMap) (k : String) :
    findRecord m k = none ↔ ∀ p ∈ m, p.1 ≠ k := by
  induction m with
  | nil => simp [findRecord]
  | cons p m ih =>
    obtain ⟨k0, r0⟩ := p
    show (if k0 = k then some r0 else findRecord m k) = none ↔ _
    by_cases h : k0 = k
    · rw [if_pos h]
      simp [h, ih]
    · rw [if_neg h]
      simp only [List.mem_cons, ih]
      constructor
      · intro hall p hp
        rcases hp with hp | hp
        · subst hp; exact h
        · exact hall p hp
      · intro hall p hp
        exact hall p (Or.inr hp)

/-- Deleting a key makes its lookup miss. -/
theorem findRecord_filter_self (m : FavMap) (id : String) :
    findRecord (m.filter (fun p => p.1 ≠ id)) id = none := by
  rw [findRecord_eq_none_iff]
  intro p hp
  have := (List.mem_filter.mp hp).2
  simpa using this

/-- Deleting one key leaves lookups of every other key unchanged. -/
theorem findRecord_filter_ne (m : FavMap) (id k : String) (h : k ≠ id) :
    findRecord (m.filter (fun p => p.1 ≠ id)) k = findRecord m k := by
  induction m with
  | nil => rfl
  | cons p m ih =>
    obtain ⟨k0, r0⟩ := p
    by_cases h0 : k0 = id
    · have : ((k0, r0) :: m).filter (fun p => p.1 ≠ id) = m.filter (fun p => p.1 ≠ id) := by
        simp [List.filter_cons, h0]
      rw [this, ih]
      show _ = (if k0 = k then some r0 else findRecord m k)
      rw [if_neg (by rw [h0]; exact fun hc => h hc.symm)]
    · have : ((k0, r0) :: m).filter (fun p => p.1 ≠ id) =
          (k0, r0) :: m.filter (fun p => p.1 ≠ id) := by
        simp [List.filter_cons, h0]
      rw [this]
      show (if k0 = k then some r0 else findRecord (m.filter (fun p => p.1 ≠ id)) k) =
        (if k0 = k then some r0 else findRecord m k)
      by_cases hk : k0 = k
      · rw [if_pos hk, if_pos hk]
      · rw [if_neg hk, if_neg hk, ih]

/-- A map without the key is unchanged by deleting it. -/
theorem filter_eq_self_of_none (m : FavMap) (id : String) (h : findRecord m id = none) :
    m.filter (fun p => p.1 ≠ id) = m := by
  rw [List.filter_eq_self]
  intro p hp
  simpa using (findRecord_eq_none_iff m id).mp h p hp

/-- One toggle preserves the key invariant. -/
theorem toggleFavorite_inv (m : FavMap) (movie : Movie) (h : FavInv m) :
    FavInv (toggleFavorite m movie) := by
  rw [toggleFavorite]
  by_cases hp : (findRecord m movie.imdbID).isSome
  · rw [if_pos hp]
    intro p hp2
    exact h p (List.mem_filter.mp hp2).1
  · rw [if_neg hp]
    intro p hp2
    rcases List.mem_append.mp hp2 with hp2 | hp2
    · exact h p hp2
    · have : p = (movie.imdbID, favRecordOf movie) := by simpa using hp2
      rw [this]
      rfl

/-- Any toggle sequence from an invariant map stays invariant. -/
theorem foldl_toggleFavorite_inv (ms : List Movie) :
    ∀ m : FavMap, FavInv m → FavInv (ms.foldl toggleFavorite m) := by
  induction ms with
  | nil => intro m h; exact h
  | cons mv ms ih =>
    intro m h
    exact ih _ (toggleFavorite_inv m mv h)

/-- The persisted JSON object of an invariant map carries the invariant in
its fields. -/
theorem favToJson_inv (m : FavMap) (h : FavInv m) : JsonFavInv (favToJson m) := by
  intro p hp
  rw [List.mem_map] at hp
  obtain ⟨q, hq, hpq⟩ := hp
  refine ⟨[("imdbID", .str q.2.imdbID), ("Title", .str q.2.Title), ("Year", .str q.2.Year),
    ("Poster", .str q.2.Poster), ("Type", .str q.2.TypeField)], ?_, ?_⟩
  · rw [← hpq]; rfl
  · rw [← hpq]
    show some (Json.str q.2.imdbID) = some (Json.str q.1)
    rw [h q hq]

/-- On fragments, the browser-hash round trip through parseHash agrees with
the direct one-slash-stripping rules. -/
theorem route_eq_rules (frag : String) : routeOfFragment frag = fragmentRouteRules frag := by
  rw [routeOfFragment, fragmentRouteRules]
  by_cases h : frag = ""
  · rw [if_pos h, h]; rfl
  · rw [if_neg h, parseHash]
    have hd : ("#" ++ frag).data = '#' :: frag.data := by
      rw [String.data_append]; rfl
    rw [hd]
    congr 1

/-- Math.ceil of an exact tenth equals the rounding-up integer division. -/
theorem totalPages_eq (t : Int) : totalPages t = (t + 9) / 10 := by
  have h1 : 10 * ((t + 9) / 10) ≤ t + 9 := by omega
  have h2 : t ≤ 10 * ((t + 9) / 10) := by omega
  rw [totalPages, Int.ceil_eq_iff]
  constructor
  · rw [lt_div_iff₀ (by norm_num : (0 : ℚ) < 10)]
    have h1q : (10 : ℚ) * (((t + 9) / 10 : ℤ) : ℚ) ≤ (t : ℚ) + 9 := by exact_mod_cast h1
    linarith
  · rw [div_le_iff₀ (by norm_num : (0 : ℚ) < 10)]
    have h2q : (t : ℚ) ≤ 10 * (((t + 9) / 10 : ℤ) : ℚ) := by exact_mod_cast h2
    linarith

/-- C1 counterexample: the claimed invariant that no reachable post-search
state has both a nonempty result list and a nonempty error fails on the
code.  A successful search for a term populates the results; a following
search (page change) that throws sets the error but does not clear the
results, leaving a reachable post-search state with both nonempty. -/
theorem c1_counterexample :
    (doSearch (doSearch initialSearchState "matrix" "key" 1
        (.reply (.obj [("Response", .str "True"),
          ("Search", .arr [.obj [("imdbID", .str "tt0133093"), ("Title", .str "The Matrix")]]),
          ("totalResults", .str "1")]))).1 "matrix" "key" 2 .thrown).1.results ≠ [] ∧
    (doSearch (doSearch initialSearchState "matrix" "key" 1
        (.reply (.obj [("Response", .str "True"),
          ("Search", .arr [.obj [("imdbID", .str "tt0133093"), ("Title", .str "The Matrix")]]),
          ("totalResults", .str "1")]))).1 "matrix" "key" 2 .thrown).1.error ≠ "" := by
  constructor
  · rw [show (doSearch (doSearch initialSearchState "matrix" "key" 1
        (.reply (.obj [("Response", .str "True"),
          ("Search", .arr [.obj [("imdbID", .str "tt0133093"), ("Title", .str "The Matrix")]]),
          ("totalResults", .str "1")]))).1 "matrix" "key" 2 .thrown).1.results =
      [.obj [("imdbID", .str "tt0133093"), ("Title", .str "The Matrix")]] from rfl]
    simp
  · decide

/-- C1 amended: for every completed search with a nonempty term, a present
credential and page at least one, a search that receives a well-formed
upstream reply either ends with nonempty results of length at most ten, a
nonnegative total and no error, or ends with an error and empty results; a
search that ends in a thrown network or parse failure sets the error but
retains the previous results and total, which is what makes the
both-populated-and-errored state of the counterexample reachable. -/
theorem c1_search_invariant_amended (st : SearchState) (q apiKey : String) (p : Nat)
    (hq : q ≠ "") (hk : apiKey ≠ "") (_hp : 1 ≤ p) :
    (∀ data : Json, WFSearchData data →
      ((doSearch st q apiKey p (.reply data)).1.results ≠ [] ∧
       (doSearch st q apiKey p (.reply data)).1.results.length ≤ 10 ∧
       (∃ n : Int, (doSearch st q apiKey p (.reply data)).1.total = some n ∧ 0 ≤ n) ∧
       (doSearch st q apiKey p (.reply data)).1.error = "") ∨
      ((doSearch st q apiKey p (.reply data)).1.error ≠ "" ∧
       (doSearch st q apiKey p (.reply data)).1.results = [])) ∧
    ((doSearch st q apiKey p .thrown).1.error = searchFailMsg ∧
     (doSearch st q apiKey p .thrown).1.results = st.results ∧
     (doSearch st q apiKey p .thrown).1.total = st.total) := by
  have hcond : ¬(q = "" ∨ apiKey = "") := by
    rintro (h | h)
    · exact hq h
    · exact hk h
  constructor
  · intro data hwf
    rcases hwf with ⟨hresp, _⟩ | ⟨hresp, ⟨items, hsearch, hne, hlen⟩, ⟨s, htot, hsne, hsdig⟩⟩
    · right
      have hf : isFalseResponse data = true := by simp [isFalseResponse, hresp]
      constructor
      · have herr : (doSearch st q apiKey p (.reply data)).1.error =
            errMsgOr (getField data "Error") noResultsMsg := by
          simp [doSearch, hcond, hf]
        rw [herr]
        exact errMsgOr_ne_empty _ _ (by decide)
      · simp [doSearch, hcond, hf]
    · left
      have hf : isFalseResponse data = false := by simp [isFalseResponse, hresp]
      have hs0 : ¬(s = "") := fun h => hsne ((str_eq_empty_iff s).mp h)
      have hres : (doSearch st q apiKey p (.reply data)).1.results = items := by
        simp [doSearch, hcond, hf, hsearch]
      have htotal : (doSearch st q apiKey p (.reply data)).1.total =
          some ((charsToNat s.data : Nat) : Int) := by
        simp [doSearch, hcond, hf, htot, numOrZero, jsTruthy, toNumber, hs0, hsne, hsdig]
      refine ⟨?_, ?_, ⟨((charsToNat s.data : Nat) : Int), htotal, by positivity⟩, ?_⟩
      · rw [hres]; exact hne
      · rw [hres]; exact hlen
      · simp [doSearch, hcond, hf]
  · refine ⟨?_, ?_, ?_⟩ <;> simp [doSearch, hcond]

/-- C1 witness: the amended invariant instantiated at a concrete state,
term, credential and page. -/
theorem c1_witness :
    ("matrix" ≠ "" ∧ "key" ≠ "" ∧ 1 ≤ 1) ∧
    ((∀ data : Json, WFSearchData data →
      ((doSearch initialSearchState "matrix" "key" 1 (.reply data)).1.results ≠ [] ∧
       (doSearch initialSearchState "matrix" "key" 1 (.reply data)).1.results.length ≤ 10 ∧
       (∃ n : Int, (doSearch initialSearchState "matrix" "key" 1 (.reply data)).1.total = some n ∧
         0 ≤ n) ∧
       (doSearch initialSearchState "matrix" "key" 1 (.reply data)).1.error = "") ∨
      ((doSearch initialSearchState "matrix" "key" 1 (.reply data)).1.error ≠ "" ∧
       (doSearch initialSearchState "matrix" "key" 1 (.reply data)).1.results = [])) ∧
    ((doSearch initialSearchState "matrix" "key" 1 .thrown).1.error = searchFailMsg ∧
     (doSearch initialSearchState "matrix" "key" 1 .thrown).1.results =
       initialSearchState.results ∧
     (doSearch initialSearchState "matrix" "key" 1 .thrown).1.total =
       initialSearchState.total)) :=
  ⟨⟨by decide, by decide, by decide⟩,
    c1_search_invariant_amended initialSearchState "matrix" "key" 1
      (by decide) (by decide) (by decide)⟩

/-- C2 counterexample: toggling twice with the same item is not self-inverse
for every mapping and item.  When the stored record under the item id
differs from the record derived from the item (here an older title), the
first toggle deletes the entry and the second inserts the record derived
from the item, so the resulting mapping differs from the original. -/
theorem c2_counterexample :
    toggleFavorite (toggleFavorite
        [("tt0133093", ⟨"tt0133093", "The Matrix", "1999", "N/A", "movie"⟩)]
        ⟨"tt0133093", "Matrix Reloaded", "2003", "N/A", "movie"⟩)
      ⟨"tt0133093", "Matrix Reloaded", "2003", "N/A", "movie"⟩ ≠
    [("tt0133093", ⟨"tt0133093", "The Matrix", "1999", "N/A", "movie"⟩)] := by decide

/-- C2 amended: toggling twice with the same item restores the mapping, as
observed through lookup at every key, provided the record stored under the
item id, when there is one, equals the record derived from the item; this
proviso holds in particular whenever the stored record was created by
toggling the same item data, and without it only the key set is restored. -/
theorem c2_toggle_amended (m : FavMap) (item : Movie)
    (h : ∀ r, findRecord m item.imdbID = some r → r = favRecordOf item) :
    ∀ k, findRecord (toggleFavorite (toggleFavorite m item) item) k = findRecord m k := by
  intro k
  by_cases hp : (findRecord m item.imdbID).isSome = true
  · obtain ⟨r, hr⟩ := Option.isSome_iff_exists.mp hp
    have hre : r = favRecordOf item := h r hr
    have ht1 : toggleFavorite m item = m.filter (fun p => p.1 ≠ item.imdbID) := by
      rw [toggleFavorite, if_pos hp]
    rw [ht1]
    have hnone := findRecord_filter_self m item.imdbID
    rw [toggleFavorite, if_neg (by rw [hnone]; simp)]
    rw [findRecord_append]
    by_cases hk : k = item.imdbID
    · subst hk
      rw [findRecord_filter_self]
      show findRecord [(item.imdbID, favRecordOf item)] item.imdbID = findRecord m item.imdbID
      rw [hr, hre]
      show (if item.imdbID = item.imdbID then some (favRecordOf item) else none) =
        some (favRecordOf item)
      rw [if_pos rfl]
    · rw [findRecord_filter_ne m item.imdbID k hk]
      cases hfk : findRecord m k with
      | some r2 => rfl
      | none =>
        show findRecord [(item.imdbID, favRecordOf item)] k = none
        show (if item.imdbID = k then some (favRecordOf item) else none) = none
        rw [if_neg (fun hc => hk hc.symm)]
  · have hmnone : findRecord m item.imdbID = none := Option.not_isSome_iff_eq_none.mp hp
    have ht1 : toggleFavorite m item = m ++ [(item.imdbID, favRecordOf item)] := by
      rw [toggleFavorite, if_neg hp]
    rw [ht1]
    have hfull : findRecord (m ++ [(item.imdbID, favRecordOf item)]) item.imdbID =
        some (favRecordOf item) := by
      rw [findRecord_append, hmnone]
      show (if item.imdbID = item.imdbID then some (favRecordOf item) else none) = _
      rw [if_pos rfl]
    rw [toggleFavorite, if_pos (by rw [hfull]; rfl)]
    have hfilter : (m ++ [(item.imdbID, favRecordOf item)]).filter
        (fun p => p.1 ≠ item.imdbID) = m := by
      rw [List.filter_append]
      have h2 : ([(item.imdbID, favRecordOf item)].filter
          (fun p => p.1 ≠ item.imdbID)) = [] := by
        simp
      rw [h2, List.append_nil, filter_eq_self_of_none m _ hmnone]
    rw [hfilter]

/-- C2 witness: the amended statement instantiated at the empty mapping and
a concrete item, where the proviso is vacuous. -/
theorem c2_witness :
    (∀ r, findRecord ([] : FavMap) "tt0133093" = some r →
      r = favRecordOf ⟨"tt0133093", "The Matrix", "1999", "N/A", "movie"⟩) ∧
    (∀ k, findRecord (toggleFavorite (toggleFavorite []
        ⟨"tt0133093", "The Matrix", "1999", "N/A", "movie"⟩)
        ⟨"tt0133093", "The Matrix", "1999", "N/A", "movie"⟩) k = findRecord [] k) :=
  ⟨fun _ hr => Option.noConfusion hr,
   c2_toggle_amended [] ⟨"tt0133093", "The Matrix", "1999", "N/A", "movie"⟩
     (fun _ hr => Option.noConfusion hr)⟩

/-- C3 counterexample: the id of a details route is not the verbatim
remainder after the second segment; for the fragment with an embedded slash
the parser keeps only the next segment. -/
theorem c3_counterexample :
    routeOfFragment "/detalhes/a/b" = Route.details "a" ∧
    Route.details "a" ≠ Route.details "a/b" := by decide

/-- C3 amended: the spec examples all hold, and in general routing equals
the one-slash-stripped segment rules: empty remainder routes to Search; a
first segment detalhes with a nonempty second segment routes to Details
with that second segment alone as id (text after a further slash is
dropped); a first segment favoritos routes to Favorites regardless of extra
segments (and the leading slash is optional); every other fragment routes
to Search, never an error. -/
theorem c3_route_amended :
    routeOfFragment "" = Route.search ∧
    routeOfFragment "/" = Route.search ∧
    routeOfFragment "/favoritos" = Route.favorites ∧
    routeOfFragment "/detalhes/tt0133093" = Route.details "tt0133093" ∧
    routeOfFragment "/unknown" = Route.search ∧
    ∀ frag : String, routeOfFragment frag = fragmentRouteRules frag :=
  ⟨by decide, by decide, by decide, by decide, by decide, route_eq_rules⟩

/-- C4 counterexample: a search that ends in a thrown failure does not clear
the result list to empty; the pre-state results survive. -/
theorem c4_counterexample :
    (doSearch ⟨[.obj [("imdbID", .str "tt1375666"), ("Title", .str "Inception")]],
        some 1, false, ""⟩ "inception" "key" 1 .thrown).1.results ≠ [] := by
  rw [show (doSearch ⟨[.obj [("imdbID", .str "tt1375666"), ("Title", .str "Inception")]],
      some 1, false, ""⟩ "inception" "key" 1 .thrown).1.results =
      [.obj [("imdbID", .str "tt1375666"), ("Title", .str "Inception")]] from rfl]
  simp

/-- C4 amended: a search with a nonempty term and a present credential that
ends in a thrown network or parse failure sets exactly the generic
retry-suggesting message and lowers loading, leaving the result list and
total unchanged rather than clearing them; it differs from the no-results
case in the message text and in not resetting results and total. -/
theorem c4_failure_amended (st : SearchState) (q apiKey : String) (p : Nat)
    (hq : q ≠ "") (hk : apiKey ≠ "") :
    doSearch st q apiKey p .thrown =
      ({ st with error := searchFailMsg, loading := false }, some ⟨apiKey, q, p⟩) := by
  have hcond : ¬(q = "" ∨ apiKey = "") := by
    rintro (h | h)
    · exact hq h
    · exact hk h
  rw [doSearch, if_neg hcond]

/-- C4 witness: the amended failure transition at a concrete state. -/
theorem c4_witness :
    ("inception" ≠ "" ∧ "key" ≠ "") ∧
    doSearch initialSearchState "inception" "key" 2 .thrown =
      ({ initialSearchState with error := searchFailMsg, loading := false },
        some ⟨"key", "inception", 2⟩) :=
  ⟨⟨by decide, by decide⟩,
   c4_failure_amended initialSearchState "inception" "key" 2 (by decide) (by decide)⟩

/-- C5 counterexample: a detail load that ends in a thrown failure does not
clear the loaded data; a previously loaded record survives. -/
theorem c5_counterexample :
    (loadDetails ⟨false, "", some (.obj [("Title", .str "The Matrix")])⟩ .thrown).data ≠
      none := by
  rw [show (loadDetails ⟨false, "", some (.obj [("Title", .str "The Matrix")])⟩
      .thrown).data = some (.obj [("Title", .str "The Matrix")]) from rfl]
  simp

/-- C5 amended: a detail load that receives an upstream Response False reply
sets a nonempty error and clears the data to null; a detail load that ends
in a thrown network or parse failure sets the generic nonempty message but
retains the previous data, clearing it only if it was already null. -/
theorem c5_details_amended (st : DetailState) (json : Json) :
    (isFalseResponse json = true →
      loadDetails st (.reply json) =
        ⟨false, errMsgOr (getField json "Error") detailsNoneMsg, none⟩ ∧
      errMsgOr (getField json "Error") detailsNoneMsg ≠ "") ∧
    (loadDetails st .thrown = { st with error := detailsFailMsg, loading := false } ∧
     detailsFailMsg ≠ "" ∧ (loadDetails st .thrown).data = st.data) := by
  constructor
  · intro hf
    constructor
    · simp [loadDetails, hf]
    · exact errMsgOr_ne_empty _ _ (by decide)
  · exact ⟨rfl, by decide, rfl⟩

/-- C5 witness: the amended statement at a concrete state and a concrete
not-found reply. -/
theorem c5_witness :
    isFalseResponse (.obj [("Response", .str "False"),
      ("Error", .str "Incorrect IMDb ID.")]) = true ∧
    loadDetails ⟨true, "", none⟩
        (.reply (.obj [("Response", .str "False"), ("Error", .str "Incorrect IMDb ID.")])) =
      ⟨false, errMsgOr (getField (.obj [("Response", .str "False"),
        ("Error", .str "Incorrect IMDb ID.")]) "Error") detailsNoneMsg, none⟩ :=
  ⟨by decide,
   ((c5_details_amended ⟨true, "", none⟩
      (.obj [("Response", .str "False"), ("Error", .str "Incorrect IMDb ID.")])).1
     (by decide)).1⟩

/-- C6: a search call with an empty term or an absent credential is a
no-op: no request is issued and the whole controller state, results, total,
loading and error alike, is returned unchanged. -/
theorem c6_noop (st : SearchState) (q apiKey : String) (p : Nat) (outcome : FetchOutcome)
    (h : q = "" ∨ apiKey = "") : doSearch st q apiKey p outcome = (st, none) := by
  rw [doSearch.eq_def, if_pos h]

/-- C6 witness: the no-op at a concrete empty term. -/
theorem c6_witness :
    ("" = "" ∨ "key" = "") ∧
    doSearch initialSearchState "" "key" 1 .thrown = (initialSearchState, none) :=
  ⟨Or.inl rfl, c6_noop initialSearchState "" "key" 1 .thrown (Or.inl rfl)⟩

/-- C7: a search whose upstream reply reports Response False ends with an
empty result list, total zero, and the error set to the reply Error message
when that is a nonempty string, and to the fallback no-results message
otherwise. -/
theorem c7_no_results (st : SearchState) (q apiKey : String) (p : Nat) (data : Json)
    (hq : q ≠ "") (hk : apiKey ≠ "") (hf : isFalseResponse data = true) :
    (doSearch st q apiKey p (.reply data)).1.results = [] ∧
    (doSearch st q apiKey p (.reply data)).1.total = some 0 ∧
    (doSearch st q apiKey p (.reply data)).1.error =
      errMsgOr (getField data "Error") noResultsMsg ∧
    ((∃ s, getField data "Error" = some (.str s) ∧ s ≠ "" ∧
        (doSearch st q apiKey p (.reply data)).1.error = s) ∨
      (doSearch st q apiKey p (.reply data)).1.error = noResultsMsg) := by
  have hcond : ¬(q = "" ∨ apiKey = "") := by
    rintro (h | h)
    · exact hq h
    · exact hk h
  have herr : (doSearch st q apiKey p (.reply data)).1.error =
      errMsgOr (getField data "Error") noResultsMsg := by
    simp [doSearch, hcond, hf]
  refine ⟨by simp [doSearch, hcond, hf], by simp [doSearch, hcond, hf], herr, ?_⟩
  rw [herr]
  rcases hge : getField data "Error" with _ | j
  · right; rfl
  · cases j with
    | str s =>
      by_cases hs : s = ""
      · right
        show (if s = "" then noResultsMsg else s) = noResultsMsg
        rw [if_pos hs]
      · left
        refine ⟨s, rfl, hs, ?_⟩
        show (if s = "" then noResultsMsg else s) = s
        rw [if_neg hs]
    | null => right; rfl
    | bool b => right; rfl
    | num i => right; rfl
    | arr l => right; rfl
    | obj l => right; rfl

/-- C7 witness: the no-results transition at a concrete reply carrying an
Error message. -/
theorem c7_witness :
    ("batman" ≠ "" ∧ "key" ≠ "" ∧
      isFalseResponse (.obj [("Response", .str "False"),
        ("Error", .str "Movie not found!")]) = true) ∧
    ((doSearch initialSearchState "batman" "key" 1
        (.reply (.obj [("Response", .str "False"),
          ("Error", .str "Movie not found!")]))).1.results = [] ∧
     (doSearch initialSearchState "batman" "key" 1
        (.reply (.obj [("Response", .str "False"),
          ("Error", .str "Movie not found!")]))).1.total = some 0 ∧
     (doSearch initialSearchState "batman" "key" 1
        (.reply (.obj [("Response", .str "False"),
          ("Error", .str "Movie not found!")]))).1.error =
       errMsgOr (getField (.obj [("Response", .str "False"),
         ("Error", .str "Movie not found!")]) "Error") noResultsMsg ∧
     ((∃ s, getField (.obj [("Response", .str "False"),
          ("Error", .str "Movie not found!")]) "Error" = some (.str s) ∧ s ≠ "" ∧
        (doSearch initialSearchState "batman" "key" 1
          (.reply (.obj [("Response", .str "False"),
            ("Error", .str "Movie not found!")]))).1.error = s) ∨
      (doSearch initialSearchState "batman" "key" 1
        (.reply (.obj [("Response", .str "False"),
          ("Error", .str "Movie not found!")]))).1.error = noResultsMsg)) :=
  ⟨⟨by decide, by decide, by decide⟩,
   c7_no_results initialSearchState "batman" "key" 1
     (.obj [("Response", .str "False"), ("Error", .str "Movie not found!")])
     (by decide) (by decide) (by decide)⟩

/-- C8: from any mapping satisfying the key invariant, in particular the
empty one, any sequence of toggles preserves the invariant, the persisted
JSON rendering survives the stringify-then-parse round trip identically,
and the reloaded object again carries the invariant in its fields. -/
theorem c8_fav_invariant (m0 : FavMap) (ms : List Movie) (h : FavInv m0) :
    FavInv (ms.foldl toggleFavorite m0) ∧
    parseJson (stringifyJson (favToJson (ms.foldl toggleFavorite m0))) =
      some (favToJson (ms.foldl toggleFavorite m0)) ∧
    JsonFavInv (favToJson (ms.foldl toggleFavorite m0)) := by
  have hinv := foldl_toggleFavorite_inv ms m0 h
  exact ⟨hinv, json_roundtrip _, favToJson_inv _ hinv⟩

/-- C8 witness: the invariant and round trip after one toggle from the
empty mapping. -/
theorem c8_witness :
    FavInv ([] : FavMap) ∧
    (FavInv ([⟨"tt0133093", "The Matrix", "1999", "N/A", "movie"⟩].foldl toggleFavorite []) ∧
     parseJson (stringifyJson (favToJson
        ([⟨"tt0133093", "The Matrix", "1999", "N/A", "movie"⟩].foldl toggleFavorite []))) =
       some (favToJson
        ([⟨"tt0133093", "The Matrix", "1999", "N/A", "movie"⟩].foldl toggleFavorite [])) ∧
     JsonFavInv (favToJson
        ([⟨"tt0133093", "The Matrix", "1999", "N/A", "movie"⟩].foldl toggleFavorite []))) :=
  ⟨fun p hp => absurd hp (List.not_mem_nil p),
   c8_fav_invariant [] [⟨"tt0133093", "The Matrix", "1999", "N/A", "movie"⟩]
     (fun p hp => absurd hp (List.not_mem_nil p))⟩

/-- C9: the storage adapter returns the supplied default on a key never
written, on stored data that does not parse, and when the storage itself is
unavailable, all without raising (the model is a total function); and a set
followed by a get of the same key returns exactly the value that was set,
through the verified stringify-then-parse round trip. -/
theorem c9_storage_adapter (st : Storage) (key : String) (d v : Json) :
    (st key = none → lsGet st key d = d) ∧
    (∀ s, st key = some s → parseJson s = none → lsGet st key d = d) ∧
    lsGetUnavailable d = d ∧
    lsGet (lsSet st key v) key d = v := by
  refine ⟨?_, ?_, rfl, ?_⟩
  · intro h
    rw [lsGet, h]
  · intro s hs hnone
    rw [lsGet, hs]
    show (if s = "" then d else (parseJson s).getD d) = d
    by_cases he : s = ""
    · rw [if_pos he]
    · rw [if_neg he, hnone]
      rfl
  · rw [lsGet]
    have hkey : (lsSet st key v) key = some (stringifyJson v) := if_pos rfl
    rw [hkey]
    show (if stringifyJson v = "" then d else (parseJson (stringifyJson v)).getD d) = v
    rw [if_neg (stringifyJson_ne_empty v), json_roundtrip]
    rfl

/-- C9 witness: the adapter laws at the empty storage, the favorites key
and a concrete favorites object. -/
theorem c9_witness :
    emptyStorage "omdbFavorites" = none ∧
    lsGet emptyStorage "omdbFavorites" (.obj []) = .obj [] ∧
    lsGet (lsSet emptyStorage "omdbFavorites"
        (.obj [("tt0133093", .obj [("imdbID", .str "tt0133093"),
          ("Title", .str "The Matrix")])]))
      "omdbFavorites" (.obj []) =
      .obj [("tt0133093", .obj [("imdbID", .str "tt0133093"),
        ("Title", .str "The Matrix")])] :=
  ⟨rfl,
   (c9_storage_adapter emptyStorage "omdbFavorites" (.obj [])
      (.obj [("tt0133093", .obj [("imdbID", .str "tt0133093"),
        ("Title", .str "The Matrix")])])).1 rfl,
   (c9_storage_adapter emptyStorage "omdbFavorites" (.obj [])
      (.obj [("tt0133093", .obj [("imdbID", .str "tt0133093"),
        ("Title", .str "The Matrix")])])).2.2.2⟩

/-- C10: for every nonnegative total, the derived page count, the ceiling
of the total over the fixed page size ten, equals the rounding-up integer
division, and in particular is zero at zero, one from one through ten, and
two from eleven through twenty. -/
theorem c10_total_pages (t : Int) (_ht : 0 ≤ t) :
    totalPages t = (t + 9) / 10 ∧
    (t = 0 → totalPages t = 0) ∧
    (1 ≤ t → t ≤ 10 → totalPages t = 1) ∧
    (11 ≤ t → t ≤ 20 → totalPages t = 2) := by
  have he := totalPages_eq t
  refine ⟨he, fun h => ?_, fun h1 h2 => ?_, fun h1 h2 => ?_⟩ <;> rw [he] <;> omega

/-- C10 witness: the page count at the concrete total fifteen. -/
theorem c10_witness :
    (0 : Int) ≤ 15 ∧
    (totalPages 15 = (15 + 9) / 10 ∧
     ((15 : Int) = 0 → totalPages 15 = 0) ∧
     ((1 : Int) ≤ 15 → (15 : Int) ≤ 10 → totalPages 15 = 1) ∧
     ((11 : Int) ≤ 15 → (15 : Int) ≤ 20 → totalPages 15 = 2)) :=
  ⟨by decide, c10_total_pages 15 (by decide)⟩
